import Mathlib

/-!
Verification of the hybrid forecasting pipeline in
`src/backend/model/prediction_model.py` (stocksage).

The Python source is shallowly embedded: floats become `ℚ`, pandas series
with NaN warm-up values become `List (Option ℚ)`, fallible code returns
`Except PredError`, and the opaque trained models (Keras LSTM, XGBoost) as
well as the FinBERT classifier and the square root used by sklearn's
`StandardScaler` are passed in as function parameters.
-/

/-- Error taxonomy for the pipeline.  Every raise site in
`prediction_model.py` raises `ValueError` with a distinct message; the
constructors record which taxonomy class (spec section 7) each site
belongs to, and the messages follow the source. -/
inductive PredError where
  | insufficientData (msg : String)
  | shapeMismatch (msg : String)
  | inverseTransformError (msg : String)
  | indexError (msg : String)
  deriving DecidableEq

/-- One OHLCV row of the history DataFrame.  Dates are modelled as integer
day ordinals (one calendar day = +1). -/
structure PriceBar where
  date : ℤ
  openPrice : ℚ
  high : ℚ
  low : ℚ
  close : ℚ
  volume : ℚ
  deriving DecidableEq

/-- One Yahoo news item (title plus publication date) as consumed by
`get_stock_news_sentiment`. -/
structure NewsItem where
  title : String
  date : ℤ
  deriving DecidableEq

/-- Label-to-score map from `get_stock_news_sentiment`:
POSITIVE ↦ 1, NEUTRAL ↦ 0, NEGATIVE ↦ -1, anything else ↦ 0. -/
def labelScore (lbl : String) : ℚ :=
  if lbl = "POSITIVE" then 1 else if lbl = "NEUTRAL" then 0 else if lbl = "NEGATIVE" then -1 else 0

/-- `df.groupby("date")["score"].mean()`: one averaged score per date,
dates ascending (pandas groupby sorts keys). -/
def groupMeanByDate (rows : List (ℤ × ℚ)) : List (ℤ × ℚ) :=
  let ds := List.insertionSort (fun a b => a ≤ b) (rows.map Prod.fst).dedup
  ds.map (fun d =>
    let sel := (rows.filter (fun r => r.1 == d)).map Prod.snd
    (d, sel.sum / (sel.length : ℚ)))

/-- `get_stock_news_sentiment`: a failing provider (the `except` branch) or
an empty news list yields an empty frame; otherwise the first 10 titled
items are classified, scored and averaged per date.  `classify` stands for
the FinBERT sentiment pipeline (returns the label). -/
def getStockNewsSentiment (classify : String → String)
    (news : Except String (List NewsItem)) : List (ℤ × ℚ) :=
  match news with
  | Except.error _ => []
  | Except.ok items =>
    if items.isEmpty then []
    else
      let rows := (items.take 10).filterMap (fun it =>
        if it.title = "" then none
        else some (it.date, labelScore (classify it.title).toUpper))
      if rows.isEmpty then [] else groupMeanByDate rows

/-- Positional read of an optional series (NaN = `none`). -/
def getO (xs : List (Option ℚ)) (i : ℕ) : Option ℚ := (xs.get? i).getD none

/-- Positional read of a total series. -/
def getQ (xs : List ℚ) (i : ℕ) : ℚ := (xs.get? i).getD 0

/-- `df["Close"].rolling(window=10).mean()`: defined from index 9 on,
value = mean of the 10 closes ending at `i`. -/
def colSMA (closes : List ℚ) : List (Option ℚ) :=
  (List.range closes.length).map (fun i =>
    if 9 ≤ i then some ((((closes.drop (i - 9)).take 10).sum) / 10) else none)

/-- `close.diff(1)` : NaN at index 0. -/
def diffClose (closes : List ℚ) : List (Option ℚ) :=
  (List.range closes.length).map (fun i =>
    if i = 0 then none else some (getQ closes i - getQ closes (i - 1)))

/-- `diff.where(diff > 0, 0.0)` — the NaN at index 0 compares false and is
replaced by 0, so the up-move series is total. -/
def upMoves (closes : List ℚ) : List ℚ :=
  (diffClose closes).map (fun od => match od with
    | none => 0
    | some d => if 0 < d then d else 0)

/-- `-diff.where(diff < 0, 0.0)`. -/
def downMoves (closes : List ℚ) : List ℚ :=
  (diffClose closes).map (fun od => match od with
    | none => 0
    | some d => if d < 0 then -d else 0)

/-- One update of the `adjust=False` exponentially weighted mean: the
first observation starts the mean, later ones blend in with weight
`alpha`. -/
def ewmStep (alpha : ℚ) (m : Option ℚ) (x : ℚ) : ℚ :=
  match m with
  | none => x
  | some mv => (1 - alpha) * mv + alpha * x

/-- State-passing core of pandas `ewm(alpha, min_periods, adjust=False).mean()`:
`m` is the running mean over the non-NaN values seen so far, `c` their
count; the output is masked until `min_periods` observations were seen,
and NaN inputs carry the previous mean forward. -/
def ewmGo (alpha : ℚ) (minp : ℕ) : Option ℚ → ℕ → List (Option ℚ) → List (Option ℚ)
  | _, _, [] => []
  | m, c, none :: rest => (if minp ≤ c then m else none) :: ewmGo alpha minp m c rest
  | m, c, some x :: rest =>
    (if minp ≤ c + 1 then some (ewmStep alpha m x) else none) ::
      ewmGo alpha minp (some (ewmStep alpha m x)) (c + 1) rest

/-- `series.ewm(..., adjust=False).mean()` with the given alpha and
`min_periods`. -/
def ewmMean (alpha : ℚ) (minp : ℕ) (xs : List (Option ℚ)) : List (Option ℚ) :=
  ewmGo alpha minp none 0 xs

/-- NaN-propagating binary operation on aligned series entries. -/
def omap2 (f : ℚ → ℚ → ℚ) : Option ℚ → Option ℚ → Option ℚ
  | some a, some b => some (f a b)
  | _, _ => none

/-- Elementwise NaN-propagating combination of two aligned series. -/
def zipO (f : ℚ → ℚ → ℚ) (as bs : List (Option ℚ)) : List (Option ℚ) :=
  List.zipWith (omap2 f) as bs

/-- `ta.momentum.RSIIndicator(close).rsi()` with the default window 14:
EWMs (alpha 1/14, min_periods 14) of the up/down moves, then
`np.where(emadn == 0, 100, 100 - 100/(1+rs))`. -/
def colRSI (closes : List ℚ) : List (Option ℚ) :=
  let emaup := ewmMean (1/14) 14 ((upMoves closes).map some)
  let emadn := ewmMean (1/14) 14 ((downMoves closes).map some)
  zipO (fun u d => if d = 0 then 100 else 100 - 100 / (1 + u / d)) emaup emadn

/-- MACD line of `ta.trend.MACD` (spans 12/26, `min_periods` = span,
`adjust=False`): fast EWM minus slow EWM. -/
def macdLine (closes : List ℚ) : List (Option ℚ) :=
  let emafast := ewmMean (2/13) 12 (closes.map some)
  let emaslow := ewmMean (2/27) 26 (closes.map some)
  zipO (fun a b => a - b) emafast emaslow

/-- MACD signal line: EWM (span 9, min_periods 9) of the MACD line. -/
def macdSignal (closes : List ℚ) : List (Option ℚ) :=
  ewmMean (2/10) 9 (macdLine closes)

/-- `MACD(close).macd_diff()`: MACD line minus its signal line. -/
def colMACD (closes : List ℚ) : List (Option ℚ) :=
  zipO (fun a b => a - b) (macdLine closes) (macdSignal closes)

/-- `df["Close"].shift(k)` (lag feature): NaN for the first `k` rows. -/
def colLag (k : ℕ) (closes : List ℚ) : List (Option ℚ) :=
  (List.range closes.length).map (fun i =>
    if k ≤ i then some (getQ closes (i - k)) else none)

/-- Sentiment score attached to one kept row: the left-join on
`Date_only` with `fillna(0)` when the sentiment frame is nonempty, the
constant-0 column otherwise. -/
def scoreFor (sent : List (ℤ × ℚ)) (d : ℤ) : ℚ :=
  if sent.isEmpty then 0
  else match sent.find? (fun r => r.1 == d) with
    | some r => r.2
    | none => 0

/-- Row `i` of the engineered frame, in the feature order
`["SMA","RSI","MACD","lag_1","lag_2","lag_3","Volume","score"]`, together
with the target (`Close`) and the date; `none` when any indicator or lag
is still NaN (the row `dropna` removes). -/
def rowOpt (bars : List PriceBar) (sent : List (ℤ × ℚ)) (i : ℕ) :
    Option (List ℚ × ℚ × ℤ) :=
  match getO (colSMA (bars.map (fun b => b.close))) i,
        getO (colRSI (bars.map (fun b => b.close))) i,
        getO (colMACD (bars.map (fun b => b.close))) i,
        getO (colLag 1 (bars.map (fun b => b.close))) i,
        getO (colLag 2 (bars.map (fun b => b.close))) i,
        getO (colLag 3 (bars.map (fun b => b.close))) i,
        bars.get? i with
  | some s, some r, some m, some a, some b, some c, some bar =>
    some ([s, r, m, a, b, c, bar.volume, scoreFor sent bar.date], bar.close, bar.date)
  | _, _, _, _, _, _, _ => none

/-- `add_technical_indicators` + `create_lag_features` + `dropna` +
sentiment merge: the usable feature rows, in order. -/
def featTable (bars : List PriceBar) (sent : List (ℤ × ℚ)) :
    List (List ℚ × ℚ × ℤ) :=
  (List.range bars.length).filterMap (rowOpt bars sent)

/-- sklearn's `_handle_zeros_in_scale`: a zero scale becomes 1. -/
def handleZerosInScale (s : ℚ) : ℚ := if s = 0 then 1 else s

/-- Fitted `MinMaxScaler` state (feature range (0,1)):
`scale_ = 1 / handle_zeros(data_max - data_min)`,
`min_ = 0 - data_min * scale_`. -/
structure MinMaxScaler where
  dataMin : ℚ
  dataMax : ℚ
  min_ : ℚ
  scale_ : ℚ
  deriving DecidableEq

/-- `MinMaxScaler().fit` on a (nonempty, column-shaped) target vector. -/
def MinMaxScaler.fit (ys : List ℚ) : MinMaxScaler :=
  let dmin := ys.foldl min (ys.headD 0)
  let dmax := ys.foldl max (ys.headD 0)
  let sc := 1 / handleZerosInScale (dmax - dmin)
  { dataMin := dmin, dataMax := dmax, min_ := 0 - dmin * sc, scale_ := sc }

/-- `transform`: `x * scale_ + min_`. -/
def MinMaxScaler.transform (s : MinMaxScaler) (x : ℚ) : ℚ := x * s.scale_ + s.min_

/-- `inverse_transform`: sklearn's `check_array` rejects an empty array
(`ensure_min_samples=1`); otherwise `(x - min_) / scale_` elementwise. -/
def MinMaxScaler.inverseTransform (s : MinMaxScaler) (xs : List ℚ) :
    Except String (List ℚ) :=
  if xs.isEmpty then
    Except.error "Found array with 0 sample(s) while a minimum of 1 is required"
  else Except.ok (xs.map (fun x => (x - s.min_) / s.scale_))

/-- Fitted `StandardScaler` state: per-column mean and scale. -/
structure StandardScaler where
  meanList : List ℚ
  scaleList : List ℚ
  deriving DecidableEq

/-- `StandardScaler().fit_transform`: per column, mean and population
variance; `scale_ = handle_zeros(sqrt(var))` (the square root of the
numeric backend is a parameter); transform is `(x - mean) / scale`. -/
def StandardScaler.fitTransform (sqrtF : ℚ → ℚ) (rows : List (List ℚ)) :
    StandardScaler × List (List ℚ) :=
  let n : ℚ := rows.length
  let ncols := (rows.headD []).length
  let stats := (List.range ncols).map (fun j =>
    let col := rows.map (fun r => getQ r j)
    let m := col.sum / n
    let v := (col.map (fun x => (x - m) * (x - m))).sum / n
    (m, handleZerosInScale (sqrtF v)))
  (⟨stats.map Prod.fst, stats.map Prod.snd⟩,
   rows.map (fun r => stats.mapIdx (fun j p => (getQ r j - p.1) / p.2)))

/-- Shape-carrying numpy array, for the rank guards of the training
functions. -/
structure NdArray where
  shape : List ℕ
  data : List ℚ
  deriving DecidableEq

/-- Everything `prepare_data` returns:
`X_scaled, y_scaled_2d, y_scaled_1d, dates, scaler_X, scaler_y, df`
(of the prepared frame we keep the `Close` column, the only part the
caller reads). -/
structure PrepData where
  xScaled : List (List ℚ)
  yScaled2d : NdArray
  yScaled1d : NdArray
  dates : List ℤ
  scalerX : StandardScaler
  scalerY : MinMaxScaler
  closes : List ℚ
  deriving DecidableEq

/-- The successful branch of `prepare_data`: fit the input scaler on the
feature matrix and the target scaler on the target vector (both once, on
the training window) and package
`X_scaled, y_scaled_2d, y_scaled_1d, dates, scaler_X, scaler_y, df`. -/
def prepOf (sqrtF : ℚ → ℚ) (rows : List (List ℚ × ℚ × ℤ)) : PrepData :=
  let xRaw := rows.map (fun r => r.1)
  let y := rows.map (fun r => r.2.1)
  let dts := rows.map (fun r => r.2.2)
  let fitX := StandardScaler.fitTransform sqrtF xRaw
  let sy := MinMaxScaler.fit y
  let ys := y.map sy.transform
  ⟨fitX.2, ⟨[rows.length, 1], ys⟩, ⟨[rows.length], ys⟩, dts, fitX.1, sy, y⟩

/-- `prepare_data`: build the feature table, fail with the
insufficient-data error when no row survives `dropna`, otherwise fit both
scalers on the training window and return the scaled data. -/
def prepare_data (sqrtF : ℚ → ℚ) (bars : List PriceBar) (sent : List (ℤ × ℚ)) :
    Except PredError PrepData :=
  if (featTable bars sent).isEmpty then
    Except.error (PredError.insufficientData
      "No usable rows after indicator and lag creation (too few rows).")
  else
    Except.ok (prepOf sqrtF (featTable bars sent))

/-- `train_lstm`: guard `y_scaled_2d.ndim != 2 or y_scaled_2d.shape[1] != 1`
(short-circuit `or`, as in Python), then fit.  The fitting itself
(`Sequential([LSTM(64), Dense(1)])`, 10 epochs) is the opaque parameter
`fitL`, returning the trained model as a prediction function. -/
def train_lstm (fitL : List (List ℚ) → NdArray → (List ℚ → List ℚ))
    (x : List (List ℚ)) (y2 : NdArray) : Except PredError (List ℚ → List ℚ) :=
  if y2.shape.length ≠ 2 then
    Except.error (PredError.shapeMismatch "LSTM expects y_scaled_2d shape (n,1)")
  else if y2.shape.getD 1 0 ≠ 1 then
    Except.error (PredError.shapeMismatch "LSTM expects y_scaled_2d shape (n,1)")
  else Except.ok (fitL x y2)

/-- `train_xgboost`: guard `y_1d.ndim != 1`, then fit the opaque
gradient-boosted ensemble `fitX`. -/
def train_xgboost (fitX : List (List ℚ) → NdArray → (List ℚ → ℚ))
    (x : List (List ℚ)) (y1 : NdArray) : Except PredError (List ℚ → ℚ) :=
  if y1.shape.length ≠ 1 then
    Except.error (PredError.shapeMismatch "XGBoost expects y to be 1D")
  else Except.ok (fitX x y1)

/-- `float(np.asarray(pred).reshape(-1)[0])` under `try/except`: the first
element of the flattened model output, or the shape-mismatch error when
the output is empty (`reshape(-1)[0]` raises `IndexError`). -/
def extract_scalar (out : List ℚ) : Except PredError ℚ :=
  match out with
  | [] => Except.error (PredError.shapeMismatch "Unexpected LSTM output shape")
  | x :: _ => Except.ok x

/-- `np.roll(a, -1)`: rotate left by one (the first entry wraps to the
end). -/
def rollLeft (xs : List ℚ) : List ℚ := xs.drop 1 ++ xs.take 1

/-- `a[-1] = v` on a nonempty fresh array. -/
def setLastQ (xs : List ℚ) (v : ℚ) : List ℚ := xs.set (xs.length - 1) v

/-- One iteration of the `predict_future` loop: LSTM prediction from the
current vector, scalar extraction, `np.roll(last_X, -1)` with the scalar
written into the final slot (`new_features[-1]`, an `IndexError` on an
empty vector), then the XGBoost prediction from the updated vector.
Returns the accepted (tree) prediction and the carry-forward state. -/
def rolloutStep (lstm : List ℚ → List ℚ) (xgb : List ℚ → ℚ) (lastX : List ℚ) :
    Except PredError (ℚ × List ℚ) :=
  match extract_scalar (lstm lastX) with
  | Except.error e => Except.error e
  | Except.ok v =>
    if lastX.isEmpty then
      Except.error (PredError.indexError "index -1 is out of bounds for axis 0 with size 0")
    else
      let newFeatures := setLastQ (rollLeft lastX) v
      Except.ok (xgb newFeatures, newFeatures)

/-- The `for _ in range(future_days)` loop: collects the scaled tree
predictions and threads `last_X`. -/
def rolloutLoop (lstm : List ℚ → List ℚ) (xgb : List ℚ → ℚ) :
    ℕ → List ℚ → Except PredError (List ℚ × List ℚ)
  | 0, lastX => Except.ok ([], lastX)
  | n + 1, lastX =>
    match rolloutStep lstm xgb lastX with
    | Except.error e => Except.error e
    | Except.ok (p, newX) =>
      match rolloutLoop lstm xgb n newX with
      | Except.error e => Except.error e
      | Except.ok (rest, fin) => Except.ok (p :: rest, fin)

/-- The DataFrame `predict_future` returns: a date column and a
"Predicted Price" column. -/
structure Forecast where
  dates : List ℤ
  prices : List ℚ
  deriving DecidableEq

/-- `predict_future`: start from a copy of `X[-1]` (an `IndexError` on an
empty matrix), run the rollout, batch inverse-transform the whole scaled
sequence (any failure re-raised as the inverse-transform error), then
attach the calendar dates `dates[-1] + 1, ..., dates[-1] + future_days`. -/
def predict_future (x : List (List ℚ)) (lstm : List ℚ → List ℚ) (xgb : List ℚ → ℚ)
    (scalerY : MinMaxScaler) (dates : List ℤ) (futureDays : ℕ) :
    Except PredError Forecast :=
  match x.getLast? with
  | none => Except.error (PredError.indexError "index -1 is out of bounds for axis 0 with size 0")
  | some lastX0 =>
    match rolloutLoop lstm xgb futureDays lastX0 with
    | Except.error e => Except.error e
    | Except.ok (futureScaled, _) =>
      match scalerY.inverseTransform futureScaled with
      | Except.error _ =>
        Except.error (PredError.inverseTransformError "Error inverse transforming predictions")
      | Except.ok futureUnscaled =>
        match dates.getLast? with
        | none =>
          Except.error (PredError.indexError "index -1 is out of bounds for axis 0 with size 0")
        | some dLast =>
          Except.ok ⟨(List.range futureDays).map (fun i : ℕ => dLast + (i : ℤ) + 1), futureUnscaled⟩

/-- Python's `round(q, 2)` (banker's rounding at the half). -/
def pyRound2 (q : ℚ) : ℚ :=
  let m := q * 100
  let f : ℤ := Int.floor m
  let r := m - (f : ℚ)
  if r < 1/2 then (f : ℚ) / 100
  else if 1/2 < r then ((f : ℚ) + 1) / 100
  else if f % 2 = 0 then (f : ℚ) / 100 else ((f : ℚ) + 1) / 100

/-- The response dictionary of `generate_stock_prediction`. -/
structure PredResult where
  ticker : String
  currentPrice : ℚ
  predictions : List ℚ
  dates : List ℤ
  modelName : String
  deriving DecidableEq

/-- `generate_stock_prediction`, with the upstream providers injected: the
already-fetched history rows and the raw news response.  Empty history is
fatal before anything else runs; then prepare, train both models, roll
out, and assemble the rounded response. -/
def generate_stock_prediction (sqrtF : ℚ → ℚ)
    (fitL : List (List ℚ) → NdArray → (List ℚ → List ℚ))
    (fitX : List (List ℚ) → NdArray → (List ℚ → ℚ))
    (classify : String → String) (ticker : String)
    (hist : List PriceBar) (news : Except String (List NewsItem)) (days : ℕ) :
    Except PredError PredResult :=
  if hist.isEmpty then
    Except.error (PredError.insufficientData ("No historical data found for " ++ ticker))
  else
    match prepare_data sqrtF hist (getStockNewsSentiment classify news) with
    | Except.error e => Except.error e
    | Except.ok p =>
      match train_lstm fitL p.xScaled p.yScaled2d with
      | Except.error e => Except.error e
      | Except.ok lstmModel =>
        match train_xgboost fitX p.xScaled p.yScaled1d with
        | Except.error e => Except.error e
        | Except.ok xgbModel =>
          match predict_future p.xScaled lstmModel xgbModel p.scalerY p.dates days with
          | Except.error e => Except.error e
          | Except.ok fc =>
            Except.ok
              { ticker := ticker.toUpper
                currentPrice := pyRound2 ((p.closes.getLast?).getD 0)
                predictions := fc.prices.map pyRound2
                dates := fc.dates
                modelName := "Hybrid LSTM + XGBoost + Sentiment (Yahoo-only)" }

/-- The feature column order of `prepare_data`. -/
def featureNames : List String :=
  ["SMA", "RSI", "MACD", "lag_1", "lag_2", "lag_3", "Volume", "score"]

/-- `Except.isOk` spelled out (used to extract successful runs). -/
def exceptIsOk {ε α : Type} : Except ε α → Bool
  | Except.ok _ => true
  | Except.error _ => false

instance {ε α : Type} [DecidableEq ε] [DecidableEq α] : DecidableEq (Except ε α) :=
  fun x y =>
    match x, y with
    | Except.ok a, Except.ok b =>
      if h : a = b then isTrue (by rw [h]) else isFalse (fun hc => by cases hc; exact h rfl)
    | Except.error a, Except.error b =>
      if h : a = b then isTrue (by rw [h]) else isFalse (fun hc => by cases hc; exact h rfl)
    | Except.ok _, Except.error _ => isFalse (fun hc => by cases hc)
    | Except.error _, Except.ok _ => isFalse (fun hc => by cases hc)

lemma exceptIsOk_exists {ε α : Type} (x : Except ε α) (h : exceptIsOk x = true) :
    ∃ a, x = Except.ok a := by
  cases x with
  | ok a => exact ⟨a, rfl⟩
  | error e => simp [exceptIsOk] at h

lemma length_rollLeft (xs : List ℚ) : (rollLeft xs).length = xs.length := by
  cases xs <;> simp [rollLeft]

lemma length_setLastQ (xs : List ℚ) (v : ℚ) : (setLastQ xs v).length = xs.length := by
  simp [setLastQ]

lemma set_append_last (t : List ℚ) (a v : ℚ) : (t ++ [a]).set t.length v = t ++ [v] := by
  induction t with
  | nil => rfl
  | cons x xs ih => simp [List.set, ih]

lemma setLastQ_rollLeft (xs : List ℚ) (v : ℚ) (h : xs ≠ []) :
    setLastQ (rollLeft xs) v = xs.drop 1 ++ [v] := by
  cases xs with
  | nil => exact absurd rfl h
  | cons a t =>
    show setLastQ ((a :: t).drop 1 ++ (a :: t).take 1) v = t ++ [v]
    simp only [List.drop_succ_cons, List.drop_zero, List.take_succ_cons, List.take_zero]
    unfold setLastQ
    rw [List.length_append]
    simp only [List.length_singleton, Nat.add_sub_cancel]
    exact set_append_last t a v

lemma rolloutStep_eq (lstm : List ℚ → List ℚ) (xgb : List ℚ → ℚ) {s : List ℚ} {v : ℚ}
    (hs : s ≠ []) (hv : extract_scalar (lstm s) = Except.ok v) :
    rolloutStep lstm xgb s = Except.ok (xgb (s.drop 1 ++ [v]), s.drop 1 ++ [v]) := by
  unfold rolloutStep
  rw [hv]
  have hemp : s.isEmpty = false := by cases s with
    | nil => exact absurd rfl hs
    | cons a t => rfl
  rw [hemp]
  simp only [Bool.false_eq_true, if_false]
  rw [setLastQ_rollLeft s v hs]

lemma rolloutLoop_ok (lstm : List ℚ → List ℚ) (xgb : List ℚ → ℚ)
    (hl : ∀ u, lstm u ≠ []) :
    ∀ (n : ℕ) (s : List ℚ), s ≠ [] →
    ∃ out fin, rolloutLoop lstm xgb n s = Except.ok (out, fin) ∧
      out.length = n ∧ fin.length = s.length := by
  intro n
  induction n with
  | zero => exact fun s _ => ⟨[], s, rfl, rfl, rfl⟩
  | succ n ih =>
    intro s hs
    obtain ⟨v, tl, hv⟩ : ∃ v tl, lstm s = v :: tl := by
      cases h : lstm s with
      | nil => exact absurd h (hl s)
      | cons v tl => exact ⟨v, tl, rfl⟩
    have hextract : extract_scalar (lstm s) = Except.ok v := by rw [hv]; rfl
    have hstep := rolloutStep_eq lstm xgb hs hextract
    have hne : (s.drop 1 ++ [v]) ≠ [] := by simp
    obtain ⟨out, fin, hloop, hlen, hflen⟩ := ih (s.drop 1 ++ [v]) hne
    have hslen : 0 < s.length := List.length_pos.mpr hs
    refine ⟨xgb (s.drop 1 ++ [v]) :: out, fin, ?_, by simp [hlen], ?_⟩
    · show rolloutLoop lstm xgb (n + 1) s = _
      unfold rolloutLoop
      simp only [hstep, hloop]
    · rw [hflen]
      simp only [List.length_append, List.length_drop, List.length_singleton]
      omega

/-- Claim C1 counterexample: in the code's rollout step the sequence
model's scalar is NOT spliced into the last lag slot.  With the feature
layout `["SMA","RSI","MACD","lag_1","lag_2","lag_3","Volume","score"]`
(so `lag_3` sits at index 5), starting from the vector `[0,…,7]` and an
LSTM prediction of 100, the updated vector is `[1,2,3,4,5,6,7,100]`: the
prediction lands in the final (score) slot, while the `lag_3` slot holds
6, the old Volume value. -/
theorem rollout_splice_slot_counterexample :
    rolloutStep (fun _ => [100]) (fun _ => 0) [0, 1, 2, 3, 4, 5, 6, 7] =
      Except.ok (0, [1, 2, 3, 4, 5, 6, 7, 100]) ∧
    featureNames.indexOf "lag_3" = 5 ∧
    ([1, 2, 3, 4, 5, 6, 7, 100] : List ℚ).get? 5 = some 6 ∧ (6 : ℚ) ≠ 100 := by
  decide

/-- Claim C1 (amended): each rollout step predicts one scaled value with
the sequence model from the current feature vector, shifts the vector
left by one position dropping its FIRST entry (the SMA slot, not the
oldest lag) and splices the sequence model's scalar into the FINAL slot
of the vector (the sentiment-score position, not the last lag slot);
the tree model then predicts from the updated vector, that tree
prediction (not the sequence model's) is appended to the output, and the
updated vector is the next step's state. -/
theorem rollout_step_structure (lstm : List ℚ → List ℚ) (xgb : List ℚ → ℚ)
    (s : List ℚ) (v : ℚ) (n : ℕ)
    (hs : s ≠ []) (hv : extract_scalar (lstm s) = Except.ok v) :
    rolloutStep lstm xgb s = Except.ok (xgb (s.drop 1 ++ [v]), s.drop 1 ++ [v]) ∧
    rolloutLoop lstm xgb (n + 1) s =
      (match rolloutLoop lstm xgb n (s.drop 1 ++ [v]) with
       | Except.error e => Except.error e
       | Except.ok (rest, fin) => Except.ok (xgb (s.drop 1 ++ [v]) :: rest, fin)) := by
  have h := rolloutStep_eq lstm xgb hs hv
  refine ⟨h, ?_⟩
  have hsucc : rolloutLoop lstm xgb (n + 1) s =
      (match rolloutStep lstm xgb s with
       | Except.error e => Except.error e
       | Except.ok (p, newX) =>
         match rolloutLoop lstm xgb n newX with
         | Except.error e => Except.error e
         | Except.ok (rest, fin) => Except.ok (p :: rest, fin)) := rfl
  rw [hsucc, h]

theorem rollout_step_structure_witness :
    rolloutStep (fun _ => [2]) (fun _ => 9) [1, 2, 3] = Except.ok (9, [2, 3, 2]) ∧
    rolloutLoop (fun _ => [2]) (fun _ => 9) 1 [1, 2, 3] =
      (match rolloutLoop (fun _ => [2]) (fun _ => (9 : ℚ)) 0 [2, 3, 2] with
       | Except.error e => Except.error e
       | Except.ok (rest, fin) => Except.ok (9 :: rest, fin)) :=
  rollout_step_structure (fun _ => [2]) (fun _ => 9) [1, 2, 3] 2 0 (by simp) rfl

/-- Claim C2: for a nonempty scaled feature matrix whose last row is a
nonempty vector, a nonempty date column, any horizon `n ≥ 1` and a
sequence model that always produces a nonempty output, `predict_future`
succeeds with exactly `n` forecast points, the rollout contributes one
point per iteration (no early exit), and the attached dates are
`dates[-1] + 1, dates[-1] + 2, …`: strictly increasing by exactly one
calendar day starting the day after the last known history date. -/
theorem predict_future_horizon_and_dates (x : List (List ℚ))
    (lstm : List ℚ → List ℚ) (xgb : List ℚ → ℚ) (sy : MinMaxScaler)
    (dates : List ℤ) (n : ℕ) (r : List ℚ) (dL : ℤ)
    (hx : x.getLast? = some r) (hr : r ≠ []) (hd : dates.getLast? = some dL)
    (hn : 1 ≤ n) (hl : ∀ u, lstm u ≠ []) :
    ∃ f, predict_future x lstm xgb sy dates n = Except.ok f ∧
      f.prices.length = n ∧ f.dates.length = n ∧
      (∀ i, i < n → f.dates.get? i = some (dL + (i : ℤ) + 1)) ∧
      (∀ i, i + 1 < n →
        f.dates.get? (i + 1) = (f.dates.get? i).map (fun d => d + 1)) := by
  obtain ⟨out, fin, hloop, hlen, _⟩ := rolloutLoop_ok lstm xgb hl n r hr
  have hne : out.isEmpty = false := by
    cases out with
    | nil => rw [List.length_nil] at hlen; omega
    | cons _ _ => rfl
  refine ⟨⟨(List.range n).map (fun i : ℕ => dL + (i : ℤ) + 1),
           out.map (fun q => (q - sy.min_) / sy.scale_)⟩, ?_, ?_, ?_, ?_, ?_⟩
  · unfold predict_future MinMaxScaler.inverseTransform
    rw [hx]
    simp only [hloop, hne, Bool.false_eq_true, if_false, hd]
  · simp [hlen]
  · simp
  · intro i hi
    simp [List.get?_eq_getElem?, List.getElem?_map, List.getElem?_range hi]
  · intro i hi
    have h1 : i < n := by omega
    simp only [List.get?_eq_getElem?, List.getElem?_map, List.getElem?_range hi,
      List.getElem?_range h1, Option.map_some']
    congr 1
    push_cast
    ring

theorem predict_future_horizon_and_dates_witness :
    ∃ f, predict_future [[1, 2]] (fun _ => [0]) (fun _ => 0) ⟨0, 1, 0, 1⟩ [10] 2 =
        Except.ok f ∧
      f.prices.length = 2 ∧ f.dates.length = 2 ∧
      (∀ i, i < 2 → f.dates.get? i = some (10 + (i : ℤ) + 1)) ∧
      (∀ i, i + 1 < 2 →
        f.dates.get? (i + 1) = (f.dates.get? i).map (fun d => d + 1)) :=
  predict_future_horizon_and_dates [[1, 2]] (fun _ => [0]) (fun _ => 0) ⟨0, 1, 0, 1⟩
    [10] 2 [1, 2] 10 rfl (by simp) rfl (by omega) (fun u => by simp)

/-- Claim C3 counterexample: a sequence-model output with MORE than one
element is not rejected during rollout — `reshape(-1)[0]` silently
coerces it to its first element.  The two-element output `[5, 7]` cannot
be faithfully reduced to a single scalar, yet extraction returns 5 (the
7 is discarded) and the rollout step succeeds instead of raising the
shape-mismatch error. -/
theorem scalar_coercion_counterexample :
    extract_scalar [5, 7] = Except.ok 5 ∧
    rolloutStep (fun _ => [5, 7]) (fun _ => 0) [1, 2, 3] =
      Except.ok (0, [2, 3, 5]) := by
  decide

/-- Claim C3 (amended): a sequence-model training target that is not
rank-2 with second dimension 1 is rejected with the shape-mismatch
error, and so is a tree-model training target that is not rank-1
(never silently reshaped); during rollout an EMPTY sequence-model output
raises the shape-mismatch error, but a nonempty output is reduced to its
first element (a multi-element output is silently coerced, not
rejected). -/
theorem shape_contract_guards
    (fitL : List (List ℚ) → NdArray → (List ℚ → List ℚ))
    (fitXg : List (List ℚ) → NdArray → (List ℚ → ℚ))
    (x : List (List ℚ)) (y2 y1 : NdArray) :
    (¬ (y2.shape.length = 2 ∧ y2.shape.getD 1 0 = 1) →
      train_lstm fitL x y2 =
        Except.error (PredError.shapeMismatch "LSTM expects y_scaled_2d shape (n,1)")) ∧
    (y1.shape.length ≠ 1 →
      train_xgboost fitXg x y1 =
        Except.error (PredError.shapeMismatch "XGBoost expects y to be 1D")) ∧
    extract_scalar [] =
      Except.error (PredError.shapeMismatch "Unexpected LSTM output shape") ∧
    (∀ (q : ℚ) (qs : List ℚ), extract_scalar (q :: qs) = Except.ok q) := by
  refine ⟨?_, ?_, rfl, fun q qs => rfl⟩
  · intro h
    unfold train_lstm
    split_ifs with h1 h2
    · rfl
    · rfl
    · push_neg at h1 h2
      exact absurd ⟨h1, h2⟩ h
  · intro h
    unfold train_xgboost
    rw [if_pos h]

theorem shape_contract_guards_witness :
    train_lstm (fun _ _ => fun _ => []) [] ⟨[3], []⟩ =
      Except.error (PredError.shapeMismatch "LSTM expects y_scaled_2d shape (n,1)") ∧
    train_xgboost (fun _ _ => fun _ => 0) [] ⟨[3, 1], []⟩ =
      Except.error (PredError.shapeMismatch "XGBoost expects y to be 1D") ∧
    extract_scalar [] =
      Except.error (PredError.shapeMismatch "Unexpected LSTM output shape") ∧
    extract_scalar [(9 : ℚ)] = Except.ok 9 := by
  have h := shape_contract_guards (fun _ _ => fun _ => []) (fun _ _ => fun _ => 0)
    [] ⟨[3], []⟩ ⟨[3, 1], []⟩
  exact ⟨h.1 (by decide), h.2.1 (by decide), h.2.2.1, h.2.2.2 9 []⟩

/-- Claim C7 counterexample: with horizon 0 the call does NOT return an
empty forecast — the empty scaled-prediction array is rejected by the
scaler's `inverse_transform` (sklearn's `check_array` requires at least
one sample) and the call raises the inverse-transform error. -/
theorem horizon_zero_counterexample :
    predict_future [[1, 2, 3, 4, 5, 6, 7, 8]] (fun _ => [0]) (fun _ => 0)
      ⟨0, 1, 0, 1⟩ [0] 0 =
      Except.error (PredError.inverseTransformError "Error inverse transforming predictions") := by
  decide

/-- Claim C7 (amended): for horizon 0 the rollout loop body never runs
(the loop state passes through unchanged), but instead of returning an
empty forecast list the call fails: inverse-transforming the empty
prediction array raises the inverse-transform error. -/
theorem horizon_zero_raises (x : List (List ℚ)) (lstm : List ℚ → List ℚ)
    (xgb : List ℚ → ℚ) (sy : MinMaxScaler) (dates : List ℤ) (r : List ℚ)
    (hx : x.getLast? = some r) :
    predict_future x lstm xgb sy dates 0 =
      Except.error (PredError.inverseTransformError "Error inverse transforming predictions") ∧
    rolloutLoop lstm xgb 0 r = Except.ok ([], r) := by
  refine ⟨?_, rfl⟩
  unfold predict_future
  rw [hx]
  rfl

theorem horizon_zero_raises_witness :
    predict_future [[1, 2]] (fun _ => [0]) (fun _ => 0) ⟨0, 1, 0, 1⟩ [3] 0 =
      Except.error (PredError.inverseTransformError "Error inverse transforming predictions") ∧
    rolloutLoop (fun _ => [(0 : ℚ)]) (fun _ => (0 : ℚ)) 0 [1, 2] = Except.ok ([], [1, 2]) :=
  horizon_zero_raises [[1, 2]] (fun _ => [0]) (fun _ => 0) ⟨0, 1, 0, 1⟩ [3] [1, 2] rfl

lemma minmax_scale_ne_zero (ys : List ℚ) : (MinMaxScaler.fit ys).scale_ ≠ 0 := by
  unfold MinMaxScaler.fit handleZerosInScale
  simp only
  split_ifs with h
  · norm_num
  · exact one_div_ne_zero h

/-- Claim C8: forward-transforming a (nonempty) target vector with the
min-max scaler fitted on it and then inverse-transforming reproduces the
original values within tolerance 1e-6 (in the rational model the
round-trip is exact, so the error is 0). -/
theorem minmax_roundtrip (ys : List ℚ) (hne : ys ≠ []) :
    ∃ zs, (MinMaxScaler.fit ys).inverseTransform
        (ys.map (MinMaxScaler.fit ys).transform) = Except.ok zs ∧
      zs.length = ys.length ∧
      ∀ i, i < ys.length → ∃ a b, zs.get? i = some a ∧ ys.get? i = some b ∧
        |a - b| ≤ 1 / 1000000 := by
  have hs := minmax_scale_ne_zero ys
  have hpt : ∀ q : ℚ,
      ((MinMaxScaler.fit ys).transform q - (MinMaxScaler.fit ys).min_) /
        (MinMaxScaler.fit ys).scale_ = q := by
    intro q
    unfold MinMaxScaler.transform
    rw [add_sub_cancel_right, mul_div_assoc, div_self hs, mul_one]
  have hemp : (ys.map (MinMaxScaler.fit ys).transform).isEmpty = false := by
    cases ys with
    | nil => exact absurd rfl hne
    | cons a t => rfl
  refine ⟨ys, ?_, rfl, ?_⟩
  · unfold MinMaxScaler.inverseTransform
    rw [hemp]
    simp only [Bool.false_eq_true, if_false, List.map_map]
    congr 1
    calc ys.map (fun x =>
          ((MinMaxScaler.fit ys).transform x - (MinMaxScaler.fit ys).min_) /
            (MinMaxScaler.fit ys).scale_)
        = ys.map id := List.map_congr_left (fun q _ => hpt q)
      _ = ys := List.map_id ys
  · intro i hi
    refine ⟨ys.get ⟨i, hi⟩, ys.get ⟨i, hi⟩, List.get?_eq_get hi, List.get?_eq_get hi, ?_⟩
    simp

theorem minmax_roundtrip_witness :
    ∃ zs, (MinMaxScaler.fit [1, 2, 3]).inverseTransform
        ([1, 2, 3].map (MinMaxScaler.fit [1, 2, 3]).transform) = Except.ok zs ∧
      zs.length = ([1, 2, 3] : List ℚ).length ∧
      ∀ i, i < ([1, 2, 3] : List ℚ).length → ∃ a b, zs.get? i = some a ∧
        ([1, 2, 3] : List ℚ).get? i = some b ∧ |a - b| ≤ 1 / 1000000 :=
  minmax_roundtrip [1, 2, 3] (by simp)

/-- Claim C6: an empty history sequence makes the pipeline fail with the
insufficient-data error before any model training is attempted (the
result does not depend on the training functions at all), and the same
insufficient-data error class is raised when no rows survive the
indicator warm-up `dropna`; in all these cases the result is an error,
never a partial forecast. -/
theorem empty_history_and_warmup_errors (sqrtF : ℚ → ℚ)
    (fitL fitL2 : List (List ℚ) → NdArray → (List ℚ → List ℚ))
    (fitXg fitXg2 : List (List ℚ) → NdArray → (List ℚ → ℚ))
    (classify : String → String) (ticker : String)
    (news : Except String (List NewsItem)) (days : ℕ) :
    (generate_stock_prediction sqrtF fitL fitXg classify ticker [] news days =
      Except.error (PredError.insufficientData ("No historical data found for " ++ ticker))) ∧
    (generate_stock_prediction sqrtF fitL fitXg classify ticker [] news days =
      generate_stock_prediction sqrtF fitL2 fitXg2 classify ticker [] news days) ∧
    (∀ hist : List PriceBar, hist ≠ [] →
      featTable hist (getStockNewsSentiment classify news) = [] →
      generate_stock_prediction sqrtF fitL fitXg classify ticker hist news days =
        Except.error (PredError.insufficientData
          "No usable rows after indicator and lag creation (too few rows).")) := by
  refine ⟨rfl, rfl, ?_⟩
  intro hist hne hrows
  unfold generate_stock_prediction
  have hemp : hist.isEmpty = false := by
    cases hist with
    | nil => exact absurd rfl hne
    | cons a t => rfl
  rw [hemp]
  simp only [Bool.false_eq_true, if_false]
  unfold prepare_data
  rw [hrows]
  rfl

theorem empty_history_and_warmup_errors_witness :
    (generate_stock_prediction (fun _ => 0) (fun _ _ _ => [0]) (fun _ _ _ => 0)
      (fun s => s) "ab" [] (Except.ok []) 1 =
      Except.error (PredError.insufficientData ("No historical data found for " ++ "ab"))) ∧
    (generate_stock_prediction (fun _ => 0) (fun _ _ _ => [0]) (fun _ _ _ => 0)
      (fun s => s) "ab" [⟨0, 1, 1, 1, 1, 1⟩] (Except.ok []) 1 =
      Except.error (PredError.insufficientData
        "No usable rows after indicator and lag creation (too few rows).")) := by
  have h := empty_history_and_warmup_errors (fun _ => 0) (fun _ _ _ => [0]) (fun _ _ _ => [0])
    (fun _ _ _ => 0) (fun _ _ _ => 0) (fun s => s) "ab" (Except.ok []) 1
  exact ⟨h.1, h.2.2 [⟨0, 1, 1, 1, 1, 1⟩] (by simp) (by decide)⟩

/-- Claim C9: a failing sentiment provider is degraded to the empty
sentiment frame, the whole pipeline then behaves exactly as with no
sentiment (the request is never aborted because of sentiment), every
usable feature row carries the neutral score 0 in its sentiment slot
(index 7), whereas an empty price-history response is fatal with the
insufficient-data error. -/
theorem sentiment_failure_neutral (classify : String → String) (e : String)
    (sqrtF : ℚ → ℚ)
    (fitL : List (List ℚ) → NdArray → (List ℚ → List ℚ))
    (fitXg : List (List ℚ) → NdArray → (List ℚ → ℚ))
    (ticker : String) (hist : List PriceBar) (days : ℕ) :
    getStockNewsSentiment classify (Except.error e) = [] ∧
    (generate_stock_prediction sqrtF fitL fitXg classify ticker hist (Except.error e) days =
      generate_stock_prediction sqrtF fitL fitXg classify ticker hist (Except.ok []) days) ∧
    (∀ row ∈ featTable hist [], row.1.get? 7 = some 0) ∧
    (hist = [] →
      generate_stock_prediction sqrtF fitL fitXg classify ticker hist (Except.error e) days =
        Except.error (PredError.insufficientData ("No historical data found for " ++ ticker))) := by
  refine ⟨rfl, rfl, ?_, ?_⟩
  · intro row hrow
    obtain ⟨i, _, heq⟩ := List.mem_filterMap.mp hrow
    revert heq
    unfold rowOpt
    cases getO (colSMA (hist.map (fun b => b.close))) i <;>
      cases getO (colRSI (hist.map (fun b => b.close))) i <;>
      cases getO (colMACD (hist.map (fun b => b.close))) i <;>
      cases getO (colLag 1 (hist.map (fun b => b.close))) i <;>
      cases getO (colLag 2 (hist.map (fun b => b.close))) i <;>
      cases getO (colLag 3 (hist.map (fun b => b.close))) i <;>
      cases hist.get? i <;>
      intro heq <;> simp only [reduceCtorEq] at heq
    obtain rfl : _ = row := Option.some.inj heq
    simp [scoreFor]
  · intro h
    subst h
    rfl

theorem sentiment_failure_neutral_witness :
    getStockNewsSentiment (fun s => s) (Except.error "boom") = [] ∧
    (generate_stock_prediction (fun _ => 0) (fun _ _ _ => [0]) (fun _ _ _ => 0)
      (fun s => s) "ab" [] (Except.error "boom") 1 =
      generate_stock_prediction (fun _ => 0) (fun _ _ _ => [0]) (fun _ _ _ => 0)
      (fun s => s) "ab" [] (Except.ok []) 1) ∧
    (generate_stock_prediction (fun _ => 0) (fun _ _ _ => [0]) (fun _ _ _ => 0)
      (fun s => s) "ab" [] (Except.error "boom") 1 =
      Except.error (PredError.insufficientData ("No historical data found for " ++ "ab"))) := by
  have h := sentiment_failure_neutral (fun s => s) "boom" (fun _ => 0) (fun _ _ _ => [0])
    (fun _ _ _ => 0) "ab" [] 1
  exact ⟨h.1, h.2.1, h.2.2.2 rfl⟩

lemma predict_future_ok_inv {x : List (List ℚ)} {lstm : List ℚ → List ℚ}
    {xgb : List ℚ → ℚ} {sy : MinMaxScaler} {dates : List ℤ} {n : ℕ} {fc : Forecast}
    (h : predict_future x lstm xgb sy dates n = Except.ok fc) :
    ∃ lastX scaled fin dL,
      x.getLast? = some lastX ∧
      rolloutLoop lstm xgb n lastX = Except.ok (scaled, fin) ∧
      scaled ≠ [] ∧
      dates.getLast? = some dL ∧
      fc = ⟨(List.range n).map (fun i : ℕ => dL + (i : ℤ) + 1),
            scaled.map (fun q => (q - sy.min_) / sy.scale_)⟩ := by
  unfold predict_future MinMaxScaler.inverseTransform at h
  split at h
  · simp at h
  · rename_i lastX hlast
    split at h
    · simp at h
    · rename_i scaled fin hrl
      split at h
      · simp at h
      · rename_i unscaled hinv
        split at h
        · simp at h
        · rename_i dL hdl
          have hemp : scaled.isEmpty = false := by
            cases hs : scaled.isEmpty with
            | true => rw [hs] at hinv; simp at hinv
            | false => rfl
          rw [hemp] at hinv
          simp only [Bool.false_eq_true, if_false, Except.ok.injEq] at hinv
          refine ⟨lastX, scaled, fin, dL, hlast, hrl, ?_, hdl, ?_⟩
          · intro hnil
            rw [hnil] at hemp
            simp at hemp
          · rw [← Except.ok.inj h, ← hinv]

/-- Claim C4: in every successful forecast request the target scaler at
work is exactly the one fitted (once) on the training targets inside
`prepare_data`, the input scaler enters only through the already
fit-transformed training matrix, the recursive rollout takes no scaler at
all (its arguments are the two trained models and the carry-forward
vector only), and the returned predictions are the single batch
inverse-transform of the whole scaled rollout output — one `map` at the
end, never per step. -/
theorem scaler_fit_once_and_batch_inverse (sqrtF : ℚ → ℚ)
    (fitL : List (List ℚ) → NdArray → (List ℚ → List ℚ))
    (fitXg : List (List ℚ) → NdArray → (List ℚ → ℚ))
    (classify : String → String) (ticker : String) (hist : List PriceBar)
    (news : Except String (List NewsItem)) (days : ℕ) (res : PredResult)
    (hok : generate_stock_prediction sqrtF fitL fitXg classify ticker hist news days =
      Except.ok res) :
    ∃ lastX scaled fin,
      (prepOf sqrtF (featTable hist (getStockNewsSentiment classify news))).scalerY =
        MinMaxScaler.fit
          ((featTable hist (getStockNewsSentiment classify news)).map (fun r => r.2.1)) ∧
      (prepOf sqrtF (featTable hist (getStockNewsSentiment classify news))).xScaled.getLast? =
        some lastX ∧
      rolloutLoop
        (fitL (prepOf sqrtF (featTable hist (getStockNewsSentiment classify news))).xScaled
              (prepOf sqrtF (featTable hist (getStockNewsSentiment classify news))).yScaled2d)
        (fitXg (prepOf sqrtF (featTable hist (getStockNewsSentiment classify news))).xScaled
              (prepOf sqrtF (featTable hist (getStockNewsSentiment classify news))).yScaled1d)
        days lastX = Except.ok (scaled, fin) ∧
      scaled ≠ [] ∧
      res.predictions = scaled.map (fun q => pyRound2
        ((q - (prepOf sqrtF (featTable hist (getStockNewsSentiment classify news))).scalerY.min_) /
          (prepOf sqrtF (featTable hist (getStockNewsSentiment classify news))).scalerY.scale_)) := by
  by_cases hhe : hist.isEmpty = true
  · unfold generate_stock_prediction at hok
    rw [if_pos hhe] at hok
    exact absurd hok (by simp)
  · by_cases hre : (featTable hist (getStockNewsSentiment classify news)).isEmpty = true
    · unfold generate_stock_prediction prepare_data at hok
      rw [if_neg hhe, if_pos hre] at hok
      exact absurd hok (by simp)
    · have hgen : generate_stock_prediction sqrtF fitL fitXg classify ticker hist news days =
          (match predict_future
              (prepOf sqrtF (featTable hist (getStockNewsSentiment classify news))).xScaled
              (fitL (prepOf sqrtF (featTable hist (getStockNewsSentiment classify news))).xScaled
                    (prepOf sqrtF (featTable hist (getStockNewsSentiment classify news))).yScaled2d)
              (fitXg (prepOf sqrtF (featTable hist (getStockNewsSentiment classify news))).xScaled
                    (prepOf sqrtF (featTable hist (getStockNewsSentiment classify news))).yScaled1d)
              (prepOf sqrtF (featTable hist (getStockNewsSentiment classify news))).scalerY
              (prepOf sqrtF (featTable hist (getStockNewsSentiment classify news))).dates days with
           | Except.error e => Except.error e
           | Except.ok fc =>
             Except.ok
               { ticker := ticker.toUpper
                 currentPrice := pyRound2
                   (((prepOf sqrtF (featTable hist
                       (getStockNewsSentiment classify news))).closes.getLast?).getD 0)
                 predictions := fc.prices.map pyRound2
                 dates := fc.dates
                 modelName := "Hybrid LSTM + XGBoost + Sentiment (Yahoo-only)" }) := by
        unfold generate_stock_prediction prepare_data train_lstm train_xgboost
        rw [if_neg hhe, if_neg hre]
        rfl
      rw [hgen] at hok
      cases hpf : predict_future
          (prepOf sqrtF (featTable hist (getStockNewsSentiment classify news))).xScaled
          (fitL (prepOf sqrtF (featTable hist (getStockNewsSentiment classify news))).xScaled
                (prepOf sqrtF (featTable hist (getStockNewsSentiment classify news))).yScaled2d)
          (fitXg (prepOf sqrtF (featTable hist (getStockNewsSentiment classify news))).xScaled
                (prepOf sqrtF (featTable hist (getStockNewsSentiment classify news))).yScaled1d)
          (prepOf sqrtF (featTable hist (getStockNewsSentiment classify news))).scalerY
          (prepOf sqrtF (featTable hist (getStockNewsSentiment classify news))).dates days with
      | error e => rw [hpf] at hok; exact absurd hok (by simp)
      | ok fc =>
        rw [hpf] at hok
        simp only [Except.ok.injEq] at hok
        obtain ⟨lastX, scaled, fin, dL, hlast, hrl, hsne, _, hfc⟩ := predict_future_ok_inv hpf
        refine ⟨lastX, scaled, fin, rfl, hlast, hrl, hsne, ?_⟩
        rw [← hok]
        simp only [hfc, List.map_map]
        rfl

/-- A constant-price test history: `n` bars with close 100 and volume
1000, one per consecutive day. -/
def constBars (n : ℕ) : List PriceBar :=
  (List.range n).map (fun i : ℕ => ⟨(i : ℤ), 100, 100, 100, 100, 1000⟩)

theorem scaler_fit_once_and_batch_inverse_witness :
    ∃ res, generate_stock_prediction (fun _ => 0) (fun _ _ _ => [1/2]) (fun _ _ _ => 1/2)
        (fun s => s) "ab" (constBars 34) (Except.ok []) 2 = Except.ok res ∧
      ∃ lastX scaled fin,
        (prepOf (fun _ => 0) (featTable (constBars 34)
            (getStockNewsSentiment (fun s => s) (Except.ok [])))).scalerY =
          MinMaxScaler.fit
            ((featTable (constBars 34)
              (getStockNewsSentiment (fun s => s) (Except.ok []))).map (fun r => r.2.1)) ∧
        (prepOf (fun _ => 0) (featTable (constBars 34)
            (getStockNewsSentiment (fun s => s) (Except.ok [])))).xScaled.getLast? =
          some lastX ∧
        rolloutLoop
          ((fun _ _ _ => [1/2]) (prepOf (fun _ => 0) (featTable (constBars 34)
                (getStockNewsSentiment (fun s => s) (Except.ok [])))).xScaled
              (prepOf (fun _ => 0) (featTable (constBars 34)
                (getStockNewsSentiment (fun s => s) (Except.ok [])))).yScaled2d)
          ((fun _ _ _ => (1/2 : ℚ)) (prepOf (fun _ => 0) (featTable (constBars 34)
                (getStockNewsSentiment (fun s => s) (Except.ok [])))).xScaled
              (prepOf (fun _ => 0) (featTable (constBars 34)
                (getStockNewsSentiment (fun s => s) (Except.ok [])))).yScaled1d)
          2 lastX = Except.ok (scaled, fin) ∧
        scaled ≠ [] ∧
        res.predictions = scaled.map (fun q => pyRound2
          ((q - (prepOf (fun _ => 0) (featTable (constBars 34)
              (getStockNewsSentiment (fun s => s) (Except.ok [])))).scalerY.min_) /
            (prepOf (fun _ => 0) (featTable (constBars 34)
              (getStockNewsSentiment (fun s => s) (Except.ok [])))).scalerY.scale_)) := by
  obtain ⟨res, hres⟩ := exceptIsOk_exists _ (by decide :
    exceptIsOk (generate_stock_prediction (fun _ => 0) (fun _ _ _ => [1/2]) (fun _ _ _ => 1/2)
      (fun s => s) "ab" (constBars 34) (Except.ok []) 2) = true)
  exact ⟨res, hres,
    scaler_fit_once_and_batch_inverse (fun _ => 0) (fun _ _ _ => [1/2]) (fun _ _ _ => 1/2)
      (fun s => s) "ab" (constBars 34) (Except.ok []) 2 res hres⟩

/-- A heap of numpy 1-D arrays with an allocation counter, to make the
aliasing behaviour of `predict_future` explicit: `np.roll` allocates a
fresh array, `copy()` allocates a fresh array, and the only in-place
write (`new_features[-1] = v`) goes to the freshly allocated array. -/
structure Store where
  heap : ℕ → List ℚ
  next : ℕ

/-- Allocate a fresh array initialized with `v`. -/
def Store.alloc (s : Store) (v : List ℚ) : ℕ × Store :=
  (s.next, ⟨fun i => if i = s.next then v else s.heap i, s.next + 1⟩)

/-- In-place write of a whole array (models the item assignment). -/
def Store.write (s : Store) (r : ℕ) (v : List ℚ) : Store :=
  ⟨fun i => if i = r then v else s.heap i, s.next⟩

/-- The `predict_future` loop over the heap: read the carried array,
predict, allocate the rolled copy (`np.roll` returns a new array),
mutate only that fresh array (`new_features[-1] = v`), predict with the
tree model, and carry the fresh array's reference forward. -/
def rolloutLoopHeap (lstm : List ℚ → List ℚ) (xgb : List ℚ → ℚ) :
    ℕ → ℕ → Store → Except PredError (List ℚ × ℕ × Store)
  | 0, lastRef, s => Except.ok ([], lastRef, s)
  | n + 1, lastRef, s =>
    match extract_scalar (lstm (s.heap lastRef)) with
    | Except.error e => Except.error e
    | Except.ok v =>
      let a := s.alloc (rollLeft (s.heap lastRef))
      if (s.heap lastRef).isEmpty then
        Except.error (PredError.indexError "index -1 is out of bounds for axis 0 with size 0")
      else
        let s2 := a.2.write a.1 (setLastQ (a.2.heap a.1) v)
        match rolloutLoopHeap lstm xgb n a.1 s2 with
        | Except.error e => Except.error e
        | Except.ok (rest, finRef, s3) =>
          Except.ok (xgb (s2.heap a.1) :: rest, finRef, s3)

/-- `predict_future` over the heap: `X` is a list of row references and
the date column one more reference; `last_X = X[-1].copy()` allocates,
then the loop runs, then the batch inverse transform and the date
arithmetic (dates as rationals here, one cell per day). -/
def predict_future_heap (xIds : List ℕ) (datesId : ℕ)
    (lstm : List ℚ → List ℚ) (xgb : List ℚ → ℚ) (sy : MinMaxScaler)
    (n : ℕ) (s : Store) : Except PredError ((List ℚ × List ℚ) × Store) :=
  match xIds.getLast? with
  | none => Except.error (PredError.indexError "index -1 is out of bounds for axis 0 with size 0")
  | some rLast =>
    let a := s.alloc (s.heap rLast)
    match rolloutLoopHeap lstm xgb n a.1 a.2 with
    | Except.error e => Except.error e
    | Except.ok (futureScaled, _, s1) =>
      match sy.inverseTransform futureScaled with
      | Except.error _ =>
        Except.error (PredError.inverseTransformError "Error inverse transforming predictions")
      | Except.ok futureUnscaled =>
        match (s1.heap datesId).getLast? with
        | none =>
          Except.error (PredError.indexError "index -1 is out of bounds for axis 0 with size 0")
        | some dLast =>
          Except.ok (((List.range n).map (fun i : ℕ => dLast + (i : ℚ) + 1),
                      futureUnscaled), s1)

lemma rolloutLoopHeap_frame (lstm : List ℚ → List ℚ) (xgb : List ℚ → ℚ) :
    ∀ (n : ℕ) (lastRef : ℕ) (s : Store) (out : List ℚ) (finRef : ℕ) (s' : Store),
    rolloutLoopHeap lstm xgb n lastRef s = Except.ok (out, finRef, s') →
    (∀ r, r < s.next → s'.heap r = s.heap r) ∧ s.next ≤ s'.next := by
  intro n
  induction n with
  | zero =>
    intro lastRef s out finRef s' h
    simp only [rolloutLoopHeap, Except.ok.injEq, Prod.mk.injEq] at h
    obtain ⟨-, -, h3⟩ := h
    subst h3
    exact ⟨fun r _ => rfl, le_refl _⟩
  | succ n ih =>
    intro lastRef s out finRef s' h
    unfold rolloutLoopHeap at h
    split at h
    · simp at h
    · rename_i v hv
      split at h
      · simp at h
      · dsimp only at h
        split at h
        · simp at h
        · rename_i rest finRef2 s3 hrec
          have hf := ih _ _ _ _ _ hrec
          simp only [Except.ok.injEq, Prod.mk.injEq] at h
          obtain ⟨-, -, h3⟩ := h
          subst h3
          constructor
          · intro r hr
            rw [hf.1 r (by simp [Store.write, Store.alloc]; omega)]
            simp only [Store.write, Store.alloc]
            have h1 : r ≠ s.next := by omega
            simp [h1]
          · refine le_trans ?_ hf.2
            simp [Store.write, Store.alloc]

lemma rolloutLoopHeap_sim (lstm : List ℚ → List ℚ) (xgb : List ℚ → ℚ) :
    ∀ (n lastRef : ℕ) (s : Store) (out : List ℚ) (finRef : ℕ) (s' : Store),
    rolloutLoopHeap lstm xgb n lastRef s = Except.ok (out, finRef, s') →
    rolloutLoop lstm xgb n (s.heap lastRef) = Except.ok (out, s'.heap finRef) := by
  intro n
  induction n with
  | zero =>
    intro lastRef s out finRef s' h
    simp only [rolloutLoopHeap, Except.ok.injEq, Prod.mk.injEq] at h
    obtain ⟨h1, h2, h3⟩ := h
    subst h1; subst h2; subst h3
    rfl
  | succ n ih =>
    intro lastRef s out finRef s' h
    unfold rolloutLoopHeap at h
    split at h
    · simp at h
    · rename_i v hv
      split at h
      · simp at h
      · rename_i hemp
        dsimp only at h
        split at h
        · simp at h
        · rename_i rest finRef2 s3 hrec
          have hsim := ih _ _ _ _ _ hrec
          simp only [Except.ok.injEq, Prod.mk.injEq] at h
          obtain ⟨h1, h2, h3⟩ := h
          subst h1; subst h2; subst h3
          have hne : s.heap lastRef ≠ [] := by
            intro hnil
            rw [hnil] at hemp
            exact hemp rfl
          simp [Store.alloc, Store.write] at hsim ⊢
          rw [setLastQ_rollLeft _ _ hne] at hsim ⊢
          unfold rolloutLoop
          rw [rolloutStep_eq lstm xgb hne hv]
          simp only [hsim]

/-- Claim C10: running `predict_future` over the explicit heap leaves
every array that existed before the call (in particular every row of `X`
and the date column) unchanged: the initial rollout state is a fresh
copy of `X[-1]` (the copied cell still holds exactly `X[-1]`'s content
afterwards), each iteration mutates only the array freshly allocated by
`np.roll`, and the produced prices agree with the pure rollout on the
unchanged inputs. -/
theorem predict_future_heap_frame_spec (xIds : List ℕ) (datesId : ℕ)
    (lstm : List ℚ → List ℚ) (xgb : List ℚ → ℚ) (sy : MinMaxScaler) (n : ℕ)
    (s : Store) (out : List ℚ × List ℚ) (s' : Store)
    (hrun : predict_future_heap xIds datesId lstm xgb sy n s = Except.ok (out, s')) :
    (∀ r, r < s.next → s'.heap r = s.heap r) ∧
    ∃ rLast scaled fin,
      xIds.getLast? = some rLast ∧
      s'.heap s.next = s.heap rLast ∧
      rolloutLoop lstm xgb n (s.heap rLast) = Except.ok (scaled, fin) ∧
      sy.inverseTransform scaled = Except.ok out.2 := by
  unfold predict_future_heap at hrun
  split at hrun
  · simp at hrun
  · rename_i rLast hlast
    dsimp only at hrun
    split at hrun
    · simp at hrun
    · rename_i scaled finRef s1 hloop
      split at hrun
      · simp at hrun
      · rename_i unscaled hinv
        split at hrun
        · simp at hrun
        · rename_i dL hdl
          simp only [Except.ok.injEq, Prod.mk.injEq] at hrun
          obtain ⟨h1, h2⟩ := hrun
          subst h2
          have hframe := rolloutLoopHeap_frame lstm xgb n _ _ _ _ _ hloop
          constructor
          · intro r hr
            rw [hframe.1 r (by simp [Store.alloc]; omega)]
            simp only [Store.alloc]
            have hne : r ≠ s.next := by omega
            simp [hne]
          · refine ⟨rLast, scaled, s1.heap finRef, hlast, ?_, ?_, ?_⟩
            · rw [hframe.1 s.next (by simp [Store.alloc])]
              simp [Store.alloc]
            · have hsim := rolloutLoopHeap_sim lstm xgb n _ _ _ _ _ hloop
              simpa [Store.alloc] using hsim
            · rw [hinv, ← h1]

/-- A two-cell test heap: cell 0 is a feature row, cell 1 the date
column. -/
def testStore : Store :=
  ⟨fun i => if i = 0 then [1, 2] else if i = 1 then [5] else [], 2⟩

theorem predict_future_heap_frame_spec_witness :
    ∃ out s', predict_future_heap [0] 1 (fun _ => [3]) (fun _ => 7) ⟨0, 1, 0, 1⟩ 1 testStore =
        Except.ok (out, s') ∧
      s'.heap 0 = testStore.heap 0 ∧
      s'.heap 1 = testStore.heap 1 ∧
      s'.heap 2 = testStore.heap 0 := by
  obtain ⟨a, ha⟩ := exceptIsOk_exists
    (predict_future_heap [0] 1 (fun _ => [3]) (fun _ => 7) ⟨0, 1, 0, 1⟩ 1 testStore) rfl
  obtain ⟨out, s'⟩ := a
  have h := predict_future_heap_frame_spec [0] 1 (fun _ => [3]) (fun _ => 7) ⟨0, 1, 0, 1⟩ 1
    testStore out s' ha
  obtain ⟨hframe, rLast, scaled, fin, hlast, hcopy, -, -⟩ := h
  refine ⟨out, s', ha, hframe 0 (by simp [testStore]), hframe 1 (by simp [testStore]), ?_⟩
  have : rLast = 0 := by
    have := hlast
    simp at this
    omega
  rw [← this]
  exact hcopy

/-- Number of defined (non-NaN) entries of an optional series. -/
def countSome (xs : List (Option ℚ)) : ℕ := xs.countP (fun o => o.isSome)

lemma countSome_nil : countSome [] = 0 := rfl

lemma countSome_cons (a : Option ℚ) (l : List (Option ℚ)) :
    countSome (a :: l) = countSome l + (if a.isSome then 1 else 0) := by
  simp [countSome, List.countP_cons]

lemma countSome_append (a b : List (Option ℚ)) :
    countSome (a ++ b) = countSome a + countSome b := by
  simp [countSome, List.countP_append]

lemma getO_cons_zero (a : Option ℚ) (l : List (Option ℚ)) : getO (a :: l) 0 = a := rfl

lemma getO_cons_succ (a : Option ℚ) (l : List (Option ℚ)) (i : ℕ) :
    getO (a :: l) (i + 1) = getO l i := rfl

lemma length_ewmGo (alpha : ℚ) (minp : ℕ) :
    ∀ (xs : List (Option ℚ)) (m : Option ℚ) (c : ℕ),
    (ewmGo alpha minp m c xs).length = xs.length := by
  intro xs
  induction xs with
  | nil => intro m c; rfl
  | cons x rest ih =>
    intro m c
    cases x <;> simp [ewmGo, ih]

lemma isSome_ewmGo (alpha : ℚ) (minp : ℕ) (hminp : 1 ≤ minp) :
    ∀ (xs : List (Option ℚ)) (m : Option ℚ) (c : ℕ), (m.isSome ↔ 0 < c) →
    ∀ i, i < xs.length →
    ((getO (ewmGo alpha minp m c xs) i).isSome ↔ minp ≤ c + countSome (xs.take (i + 1))) := by
  intro xs
  induction xs with
  | nil => intro m c hmc i hi; simp at hi
  | cons x rest ih =>
    intro m c hmc i hi
    cases x with
    | none =>
      cases i with
      | zero =>
        show ((if minp ≤ c then m else none).isSome ↔
          minp ≤ c + countSome ((none :: rest).take 1))
        have hcs : countSome ((none :: rest).take 1) = 0 := by
          simp [countSome]
        rw [hcs]
        split_ifs with hc
        · have hc0 : 0 < c := lt_of_lt_of_le hminp hc
          simp [hmc.mpr hc0, hc]
        · simp [hc]
      | succ j =>
        have hj : j < rest.length := by simpa using hi
        have := ih m c hmc j hj
        show ((getO (ewmGo alpha minp m c rest) j).isSome ↔
          minp ≤ c + countSome ((none :: rest).take (j + 2)))
        have hcs : countSome ((none :: rest).take (j + 2)) =
            countSome (rest.take (j + 1)) := by
          simp [List.take_succ_cons, countSome_cons]
        rw [hcs]
        exact this
    | some y =>
      simp only [ewmGo]
      cases i with
      | zero =>
        rw [getO_cons_zero]
        have hcs : countSome ((some y :: rest).take 1) = 1 := by
          simp [countSome]
        rw [hcs]
        split_ifs with hc <;> simp [hc]
      | succ j =>
        rw [getO_cons_succ]
        have hj : j < rest.length := by simpa using hi
        have hmc2 : (some (ewmStep alpha m y) : Option ℚ).isSome ↔ 0 < c + 1 := by simp
        have hrec := ih (some (ewmStep alpha m y)) (c + 1) hmc2 j hj
        have hcs : countSome ((some y :: rest).take (j + 2)) =
            countSome (rest.take (j + 1)) + 1 := by
          simp [List.take_succ_cons, countSome_cons]
        rw [hcs, hrec]
        omega

lemma countSome_take_threshold (xs : List (Option ℚ)) (k : ℕ)
    (hchar : ∀ j, j < xs.length → ((getO xs j).isSome ↔ k ≤ j)) :
    ∀ m, m ≤ xs.length → countSome (xs.take m) = m - k := by
  intro m
  induction m with
  | zero => intro _; simp [countSome]
  | succ m ih =>
    intro hm
    have hm' : m ≤ xs.length := by omega
    have hmlt : m < xs.length := by omega
    rw [List.take_succ, countSome_append, ih hm']
    obtain ⟨v, hv⟩ : ∃ v, xs[m]? = some v := ⟨_, List.getElem?_eq_getElem hmlt⟩
    have hgo : getO xs m = v := by simp [getO, List.get?_eq_getElem?, hv]
    have hx := hchar m hmlt
    rw [hgo] at hx
    rw [hv]
    by_cases hk : k ≤ m
    · have hvs : v.isSome = true := hx.mpr hk
      have h1 : countSome (some v).toList = 1 := by simp [countSome, hvs]
      rw [h1]
      omega
    · have hvs : v.isSome = false := by
        cases hs : v.isSome with
        | true => exact absurd (hx.mp hs) hk
        | false => rfl
      have h0 : countSome (some v).toList = 0 := by simp [countSome, hvs]
      rw [h0]
      omega

lemma getO_zipO (f : ℚ → ℚ → ℚ) :
    ∀ (as bs : List (Option ℚ)) (i : ℕ), i < as.length → i < bs.length →
    getO (zipO f as bs) i = omap2 f (getO as i) (getO bs i) := by
  intro as
  induction as with
  | nil => intro bs i hi _; simp at hi
  | cons a as ih =>
    intro bs i hi hb
    cases bs with
    | nil => simp at hb
    | cons b bs =>
      cases i with
      | zero => rfl
      | succ j =>
        show getO (zipO f as bs) j = _
        exact ih bs j (by simpa using hi) (by simpa using hb)

lemma isSome_omap2 (f : ℚ → ℚ → ℚ) (a b : Option ℚ) :
    (omap2 f a b).isSome ↔ a.isSome ∧ b.isSome := by
  cases a <;> cases b <;> simp [omap2]

lemma length_zipO (f : ℚ → ℚ → ℚ) (as bs : List (Option ℚ)) :
    (zipO f as bs).length = min as.length bs.length := by
  simp [zipO]

lemma getO_range_map (g : ℕ → Option ℚ) (n i : ℕ) (hi : i < n) :
    getO ((List.range n).map g) i = g i := by
  simp [getO, List.get?_eq_getElem?, List.getElem?_map, List.getElem?_range hi]

lemma length_colSMA (closes : List ℚ) : (colSMA closes).length = closes.length := by
  simp [colSMA]

lemma isSome_colSMA (closes : List ℚ) (i : ℕ) (hi : i < closes.length) :
    ((getO (colSMA closes) i).isSome ↔ 9 ≤ i) := by
  unfold colSMA
  rw [getO_range_map _ _ _ hi]
  split_ifs with h <;> simp [h]

lemma length_colLag (k : ℕ) (closes : List ℚ) : (colLag k closes).length = closes.length := by
  simp [colLag]

lemma isSome_colLag (k : ℕ) (closes : List ℚ) (i : ℕ) (hi : i < closes.length) :
    ((getO (colLag k closes) i).isSome ↔ k ≤ i) := by
  unfold colLag
  rw [getO_range_map _ _ _ hi]
  split_ifs with h <;> simp [h]

lemma length_diffClose (closes : List ℚ) : (diffClose closes).length = closes.length := by
  simp [diffClose]

lemma length_upMoves (closes : List ℚ) : (upMoves closes).length = closes.length := by
  simp [upMoves, length_diffClose]

lemma length_downMoves (closes : List ℚ) : (downMoves closes).length = closes.length := by
  simp [downMoves, length_diffClose]

lemma isSome_ewmMean_total (alpha : ℚ) (minp : ℕ) (hminp : 1 ≤ minp) (ys : List ℚ)
    (i : ℕ) (hi : i < ys.length) :
    ((getO (ewmMean alpha minp (ys.map some)) i).isSome ↔ minp ≤ i + 1) := by
  have hchar : ∀ j, j < (ys.map some).length → ((getO (ys.map some) j).isSome ↔ 0 ≤ j) := by
    intro j hj
    rw [List.length_map] at hj
    simp [getO, List.get?_eq_getElem?, List.getElem?_map, List.getElem?_eq_getElem hj]
  have hcount := countSome_take_threshold (ys.map some) 0 hchar (i + 1)
    (by rw [List.length_map]; omega)
  unfold ewmMean
  rw [isSome_ewmGo alpha minp hminp (ys.map some) none 0 (by simp) i
    (by rw [List.length_map]; exact hi)]
  rw [hcount]
  omega

lemma length_ewmMean (alpha : ℚ) (minp : ℕ) (xs : List (Option ℚ)) :
    (ewmMean alpha minp xs).length = xs.length := by
  unfold ewmMean
  exact length_ewmGo alpha minp xs none 0

lemma length_colRSI (closes : List ℚ) : (colRSI closes).length = closes.length := by
  simp [colRSI, length_zipO, length_ewmMean, length_upMoves, length_downMoves]

lemma isSome_colRSI (closes : List ℚ) (i : ℕ) (hi : i < closes.length) :
    ((getO (colRSI closes) i).isSome ↔ 13 ≤ i) := by
  unfold colRSI
  rw [getO_zipO _ _ _ i
    (by rw [length_ewmMean, List.length_map, length_upMoves]; exact hi)
    (by rw [length_ewmMean, List.length_map, length_downMoves]; exact hi)]
  rw [isSome_omap2]
  rw [isSome_ewmMean_total (1/14) 14 (by norm_num) (upMoves closes) i
    (by rw [length_upMoves]; exact hi)]
  rw [isSome_ewmMean_total (1/14) 14 (by norm_num) (downMoves closes) i
    (by rw [length_downMoves]; exact hi)]
  omega

lemma length_macdLine (closes : List ℚ) : (macdLine closes).length = closes.length := by
  simp [macdLine, length_zipO, length_ewmMean]

lemma isSome_macdLine (closes : List ℚ) (i : ℕ) (hi : i < closes.length) :
    ((getO (macdLine closes) i).isSome ↔ 25 ≤ i) := by
  unfold macdLine
  rw [getO_zipO _ _ _ i
    (by rw [length_ewmMean, List.length_map]; exact hi)
    (by rw [length_ewmMean, List.length_map]; exact hi)]
  rw [isSome_omap2]
  rw [isSome_ewmMean_total (2/13) 12 (by norm_num) closes i hi]
  rw [isSome_ewmMean_total (2/27) 26 (by norm_num) closes i hi]
  omega

lemma length_macdSignal (closes : List ℚ) : (macdSignal closes).length = closes.length := by
  unfold macdSignal
  rw [length_ewmMean, length_macdLine]

lemma isSome_macdSignal (closes : List ℚ) (i : ℕ) (hi : i < closes.length) :
    ((getO (macdSignal closes) i).isSome ↔ 33 ≤ i) := by
  unfold macdSignal ewmMean
  rw [isSome_ewmGo (2/10) 9 (by norm_num) (macdLine closes) none 0 (by simp) i
    (by rw [length_macdLine]; exact hi)]
  rw [countSome_take_threshold (macdLine closes) 25
    (fun j hj => isSome_macdLine closes j (by rw [length_macdLine] at hj; exact hj))
    (i + 1) (by rw [length_macdLine]; omega)]
  omega

lemma length_colMACD (closes : List ℚ) : (colMACD closes).length = closes.length := by
  simp [colMACD, length_zipO, length_macdLine, length_macdSignal]

lemma isSome_colMACD (closes : List ℚ) (i : ℕ) (hi : i < closes.length) :
    ((getO (colMACD closes) i).isSome ↔ 33 ≤ i) := by
  unfold colMACD
  rw [getO_zipO _ _ _ i (by rw [length_macdLine]; exact hi)
    (by rw [length_macdSignal]; exact hi)]
  rw [isSome_omap2, isSome_macdLine closes i hi, isSome_macdSignal closes i hi]
  omega

lemma isSome_rowOpt (bars : List PriceBar) (sent : List (ℤ × ℚ)) (i : ℕ)
    (hi : i < bars.length) :
    ((rowOpt bars sent i).isSome ↔ 33 ≤ i) := by
  have hcl : (bars.map (fun b => b.close)).length = bars.length := by simp
  have h1 := isSome_colSMA (bars.map (fun b => b.close)) i (by rw [hcl]; exact hi)
  have h2 := isSome_colRSI (bars.map (fun b => b.close)) i (by rw [hcl]; exact hi)
  have h3 := isSome_colMACD (bars.map (fun b => b.close)) i (by rw [hcl]; exact hi)
  have h4 := isSome_colLag 1 (bars.map (fun b => b.close)) i (by rw [hcl]; exact hi)
  have h5 := isSome_colLag 2 (bars.map (fun b => b.close)) i (by rw [hcl]; exact hi)
  have h6 := isSome_colLag 3 (bars.map (fun b => b.close)) i (by rw [hcl]; exact hi)
  have h7 : (bars.get? i).isSome = true := by
    rw [List.get?_eq_getElem?]
    simp [hi]
  unfold rowOpt
  cases hS : getO (colSMA (bars.map (fun b => b.close))) i <;>
    cases hR : getO (colRSI (bars.map (fun b => b.close))) i <;>
    cases hM : getO (colMACD (bars.map (fun b => b.close))) i <;>
    cases hL1 : getO (colLag 1 (bars.map (fun b => b.close))) i <;>
    cases hL2 : getO (colLag 2 (bars.map (fun b => b.close))) i <;>
    cases hL3 : getO (colLag 3 (bars.map (fun b => b.close))) i <;>
    cases hB : bars.get? i <;>
    simp_all <;> omega

lemma length_filterMap_eq_countP {α β : Type} (f : α → Option β) (l : List α) :
    (l.filterMap f).length = l.countP (fun a => (f a).isSome) := by
  induction l with
  | nil => rfl
  | cons a l ih =>
    cases h : f a with
    | none => simp [List.filterMap_cons, h, List.countP_cons, ih]
    | some b => simp [List.filterMap_cons, h, List.countP_cons, ih]

lemma countP_range_le (k : ℕ) : ∀ n : ℕ,
    (List.range n).countP (fun i => decide (k ≤ i)) = n - k := by
  intro n
  induction n with
  | zero => simp
  | succ n ih =>
    rw [List.range_succ, List.countP_append, ih]
    by_cases h : k ≤ n
    · simp [h]
      omega
    · simp [h]
      omega

/-- The number of usable feature rows: everything before row index 33
(the MACD signal warm-up, the longest one) is dropped. -/
lemma length_featTable (bars : List PriceBar) (sent : List (ℤ × ℚ)) :
    (featTable bars sent).length = bars.length - 33 := by
  unfold featTable
  rw [length_filterMap_eq_countP]
  have hcong : ∀ i ∈ List.range bars.length,
      ((rowOpt bars sent i).isSome = true ↔ decide (33 ≤ i) = true) := by
    intro i hri
    have hi := List.mem_range.mp hri
    have hch := isSome_rowOpt bars sent i hi
    simp [hch]
  rw [List.countP_congr hcong]
  exact countP_range_le 33 bars.length

/-- Claim C5: with exactly 34 bars — the minimum clearing every
indicator warm-up (SMA from row 9, RSI from row 13, the three lags from
row 3, and the MACD difference only from row 33 because its signal line
needs 9 defined MACD values on top of the slow EMA's 26) — `prepare_data`
keeps exactly one usable FeatureRow, not zero and not more; with one bar
fewer every row is dropped and it raises the insufficient-data error. -/
theorem warmup_boundary (sqrtF : ℚ → ℚ) (bars : List PriceBar) (sent : List (ℤ × ℚ)) :
    (bars.length = 34 →
      (featTable bars sent).length = 1 ∧
      ∃ p, prepare_data sqrtF bars sent = Except.ok p ∧ p.xScaled.length = 1) ∧
    (bars.length = 33 →
      prepare_data sqrtF bars sent = Except.error (PredError.insufficientData
        "No usable rows after indicator and lag creation (too few rows).")) := by
  constructor
  · intro h34
    have hlen : (featTable bars sent).length = 1 := by
      rw [length_featTable, h34]
    have hemp : (featTable bars sent).isEmpty = false := by
      cases h : featTable bars sent with
      | nil => rw [h] at hlen; simp at hlen
      | cons a t => rfl
    refine ⟨hlen, prepOf sqrtF (featTable bars sent), ?_, ?_⟩
    · unfold prepare_data
      rw [hemp]
      simp only [Bool.false_eq_true, if_false]
    · unfold prepOf StandardScaler.fitTransform
      simp [hlen]
  · intro h33
    have hlen : (featTable bars sent).length = 0 := by
      rw [length_featTable, h33]
    have hnil : featTable bars sent = [] := List.length_eq_zero.mp hlen
    unfold prepare_data
    rw [hnil]
    rfl

theorem warmup_boundary_witness :
    ((constBars 34).length = 34) ∧
    ((featTable (constBars 34) []).length = 1 ∧
      ∃ p, prepare_data (fun _ => 0) (constBars 34) [] = Except.ok p ∧
        p.xScaled.length = 1) ∧
    ((constBars 33).length = 33) ∧
    (prepare_data (fun _ => 0) (constBars 33) [] = Except.error (PredError.insufficientData
      "No usable rows after indicator and lag creation (too few rows).")) := by
  refine ⟨by simp [constBars], ?_, by simp [constBars], ?_⟩
  · exact (warmup_boundary (fun _ => 0) (constBars 34) []).1 (by simp [constBars])
  · exact (warmup_boundary (fun _ => 0) (constBars 33) []).2 (by simp [constBars])
